import Mathlib

/-!
Shallow embedding of the Temperature Aggregation & Trend Engine of
`src/v1.0.py` (a Streamlit app built on pandas / numpy).

A pandas DataFrame row `(year, day, max_temp)` is a `Row`; a missing
temperature (`NaN` in the source) is `Option.none`.  Floating-point values
are modelled as exact rationals, and a `NaN` produced by a computation
(pandas `mean` of an empty selection, `np.polyfit` on data containing
`NaN`) is again `Option.none`, with the Python comparison semantics
(`nan > 0`, `nan < 0`, `nan == 0` all `False`) made explicit.

The embedded operations, in source order:
  * `yearly_avg`   — `df.groupby('year')['max_temp'].mean().reset_index()`  (line 86)
  * `polyfitSlope` — `np.polyfit(yearly_avg['year'], yearly_avg['max_temp'], 1)[0]`  (line 93)
  * `seriesMean`, `seriesMax`, `seriesMin` — `df['max_temp'].mean() / .max() / .min()`  (lines 99-101)
  * `trend_direction`, `trend_magnitude`   — lines 104-105
  * `pivot`        — `df.pivot(index='day', columns='year', values='max_temp')`  (line 117),
                     raising pandas' duplicate-index `ValueError` when a
                     `(day, year)` pair repeats
  * `pipeline`     — the whole guarded block (lines 81-176): the empty-frame
                     branch shows "No data available", any exception is caught
                     at line 175 and surfaced as "An error occurred: ...".
-/

namespace WeatherMonth

/-- One DataFrame row: a daily maximum-temperature observation.
`max_temp = none` models a pandas `NaN` (missing value). -/
structure Row where
  year : ℤ
  day : ℤ
  max_temp : Option ℚ
deriving DecidableEq, Repr

/-- Insert an integer key into a sorted duplicate-free list, keeping it
sorted and duplicate-free.  Models the sorted unique key axis that pandas
`groupby` / `pivot` produce. -/
def insSorted (y : ℤ) : List ℤ → List ℤ
  | [] => [y]
  | z :: zs => if y < z then y :: z :: zs else if y = z then z :: zs else z :: insSorted y zs

/-- The sorted list of distinct values of a column (`groupby` keys /
`pivot` axis labels). -/
def sortedKeys (f : Row → ℤ) (df : List Row) : List ℤ :=
  df.foldr (fun r acc => insSorted (f r) acc) []

/-- Distinct years of the frame, ascending (the `groupby('year')` keys and
the pivot columns). -/
def sortedYears (df : List Row) : List ℤ := sortedKeys (fun r => r.year) df

/-- Distinct days of the frame, ascending (the pivot index). -/
def sortedDays (df : List Row) : List ℤ := sortedKeys (fun r => r.day) df

/-- pandas `Series.mean()` with default `skipna`: the list already holds
only the non-missing values; the mean of no values is `NaN` (`none`). -/
def seriesMean (vs : List ℚ) : Option ℚ :=
  if vs.isEmpty then none else some (vs.sum / vs.length)

/-- pandas `Series.max()` over the non-missing values; `NaN` when empty. -/
def seriesMax : List ℚ → Option ℚ
  | [] => none
  | v :: vs => some (vs.foldl max v)

/-- pandas `Series.min()` over the non-missing values; `NaN` when empty. -/
def seriesMin : List ℚ → Option ℚ
  | [] => none
  | v :: vs => some (vs.foldl min v)

/-- The non-missing `max_temp` values of the whole frame, in frame order
(`df['max_temp']` with `NaN` skipped by the reductions). -/
def colVals (df : List Row) : List ℚ := df.filterMap (fun r => r.max_temp)

/-- The non-missing `max_temp` values of one year group. -/
def yearVals (df : List Row) (y : ℤ) : List ℚ :=
  (df.filter (fun r => r.year == y)).filterMap (fun r => r.max_temp)

/-- `df.groupby('year')['max_temp'].mean()` for one year: `NaN` (i.e.
`none`) when every observation of the year is missing. -/
def yearMean (df : List Row) (y : ℤ) : Option ℚ := seriesMean (yearVals df y)

/-- Line 86: `yearly_avg = df.groupby('year')['max_temp'].mean().reset_index()`.
One entry per distinct year, ascending; an all-missing year keeps its entry,
with value `NaN`. -/
def yearly_avg (df : List Row) : List (ℤ × Option ℚ) :=
  (sortedYears df).map (fun y => (y, yearMean df y))

/-- Sum of the first components of a list of rational pairs. -/
def Sx (l : List (ℚ × ℚ)) : ℚ := (l.map Prod.fst).sum

/-- Sum of the second components. -/
def Sy (l : List (ℚ × ℚ)) : ℚ := (l.map Prod.snd).sum

/-- Sum of the pairwise products. -/
def Sxy (l : List (ℚ × ℚ)) : ℚ := (l.map (fun p => p.1 * p.2)).sum

/-- Sum of the squared first components. -/
def Sxx (l : List (ℚ × ℚ)) : ℚ := (l.map (fun p => p.1 * p.1)).sum

/-- Numerator of the ordinary-least-squares slope:
`n * Σxy - Σx * Σy`. -/
def lsNum (l : List (ℚ × ℚ)) : ℚ := l.length * Sxy l - Sx l * Sy l

/-- Denominator of the ordinary-least-squares slope:
`n * Σx² - (Σx)²`. -/
def lsDen (l : List (ℚ × ℚ)) : ℚ := l.length * Sxx l - Sx l * Sx l

/-- The closed-form degree-1 least-squares slope, the value `np.polyfit`
computes on a full-rank system (at least two distinct x). -/
def slopeR (l : List (ℚ × ℚ)) : ℚ := lsNum l / lsDen l

/-- Sum over all pairs `i < j` of `(xj - xi) * (yj - yi)`; equals `lsNum`
(a standard identity used to analyse the slope sign). -/
def crossSum : List (ℚ × ℚ) → ℚ
  | [] => 0
  | p :: l => (l.map (fun q => (q.1 - p.1) * (q.2 - p.2))).sum + crossSum l

/-- Line 93: `np.polyfit(yearly_avg['year'], yearly_avg['max_temp'], 1)[0]`,
applied to the `(year, mean)` pairs of `yearly_avg`.
  * Any `NaN` among the y-values contaminates the least-squares solve, so
    the slope is `NaN` (`none`).
  * `np.polyfit` raises on an empty input; the pipeline never reaches it
    with one (the frame is checked non-empty), so `none` here is unreachable.
  * On a single point `(x, y)` numpy does not raise: `lstsq` on the scaled
    1×2 Vandermonde system returns the minimum-norm solution, whose slope
    is `y / (2 * x)` (for the year values at hand, `x ≠ 0`).
  * On two or more points (years are distinct after `groupby`) the system
    is full rank and the solution is the classical `slopeR`. -/
def polyfitSlope : List (ℤ × Option ℚ) → Option ℚ
  | [] => none
  | [(x, v)] => if v.isNone then none else some (v.getD 0 / (2 * (x : ℚ)))
  | ya => if ya.any (fun p => p.2.isNone) then none
      else some (slopeR (ya.map (fun p => ((p.1 : ℚ), p.2.getD 0))))

/-- Python `slope > b` where `slope` may be `NaN`: any comparison with
`NaN` is `False`. -/
def pyGt (a : Option ℚ) (b : ℚ) : Bool :=
  match a with
  | none => false
  | some q => decide (b < q)

/-- Python `slope < b` with `NaN` semantics. -/
def pyLt (a : Option ℚ) (b : ℚ) : Bool :=
  match a with
  | none => false
  | some q => decide (q < b)

/-- Python `slope == b` with `NaN` semantics (`nan == 0` is `False`). -/
def pyEq (a : Option ℚ) (b : ℚ) : Bool :=
  match a with
  | none => false
  | some q => decide (q = b)

/-- Line 104: `"Rising" if slope > 0 else "Falling" if slope < 0 else "Stable"`. -/
def trend_direction (s : Option ℚ) : String :=
  if pyGt s 0 then "Rising" else if pyLt s 0 then "Falling" else "Stable"

/-- Line 105: `abs(slope * 10)`; `NaN` stays `NaN`. -/
def trend_magnitude (s : Option ℚ) : Option ℚ := s.map (fun q => |q * 10|)

/-- Does the frame contain two rows with the same `(year, day)` pair?
This is exactly the condition under which `df.pivot` raises. -/
def hasDupPair : List Row → Bool
  | [] => false
  | r :: rs => rs.any (fun s => s.year == r.year && s.day == r.day) || hasDupPair rs

/-- The pivoted matrix: sorted distinct days as the index, sorted distinct
years as the columns, one list of cells per index entry. -/
structure Grid where
  index : List ℤ
  columns : List ℤ
  values : List (List (Option ℚ))
deriving DecidableEq, Repr

/-- The cell a `(day, year)` pair selects in the frame: the `max_temp` of
the unique matching row, `NaN` (`none`) when no row matches. -/
def cellLookup (df : List Row) (d y : ℤ) : Option ℚ :=
  match df.find? (fun r => r.day == d && r.year == y) with
  | some r => r.max_temp
  | none => none

/-- The matrix `pivot` builds when it does not raise: rows are the sorted
distinct days, columns the sorted distinct years, absent cells are `NaN`. -/
def pivotGrid (df : List Row) : Grid :=
  { index := sortedDays df
    columns := sortedYears df
    values := (sortedDays df).map (fun d => (sortedYears df).map (fun y => cellLookup df d y)) }

/-- Line 117: `df.pivot(index='day', columns='year', values='max_temp')`.
pandas raises `ValueError: Index contains duplicate entries, cannot reshape`
when a `(day, year)` pair repeats; otherwise it builds `pivotGrid`. -/
def pivot (df : List Row) : Except String Grid :=
  if hasDupPair df then
    Except.error "Index contains duplicate entries, cannot reshape"
  else
    Except.ok (pivotGrid df)

/-- Entry of the grid at a given `(day, year)` label pair (out-of-range
labels read as `NaN`, matching an absent row/column). -/
def Grid.cellAt (g : Grid) (d y : ℤ) : Option ℚ :=
  ((g.values.getD (g.index.indexOf d) []).getD (g.columns.indexOf y) none)

/-- The result bundle the engine hands to the presentation layer. -/
structure Bundle where
  yearly : List (ℤ × Option ℚ)
  slope : Option ℚ
  overall_mean : Option ℚ
  overall_max : Option ℚ
  overall_min : Option ℚ
  direction : String
  magnitude : Option ℚ
  total_years : ℕ
  grid : Grid
deriving DecidableEq, Repr

/-- Lines 81-176: the whole processing block.  An empty frame takes the
`st.error("No data available...")` branch (line 174); the summary metrics,
trend and yearly averages never raise on a non-empty frame; the pivot's
duplicate-index `ValueError` is caught by `except Exception` (line 175)
and shown as `An error occurred: ...`. -/
def pipeline (df : List Row) : Except String Bundle :=
  if df.isEmpty then
    Except.error "No data available for the selected location and month. Please try a different selection."
  else
    match pivot df with
    | Except.error e => Except.error ("An error occurred: " ++ e)
    | Except.ok g =>
      Except.ok
        { yearly := yearly_avg df
          slope := polyfitSlope (yearly_avg df)
          overall_mean := seriesMean (colVals df)
          overall_max := seriesMax (colVals df)
          overall_min := seriesMin (colVals df)
          direction := trend_direction (polyfitSlope (yearly_avg df))
          magnitude := trend_magnitude (polyfitSlope (yearly_avg df))
          total_years := (yearly_avg df).length
          grid := g }

/-! ### Helper lemmas about the sorted key axes and row lookup -/

lemma insSorted_cons (b z : ℤ) (zs : List ℤ) :
    insSorted b (z :: zs) =
      if b < z then b :: z :: zs else if b = z then z :: zs else z :: insSorted b zs := rfl

lemma mem_insSorted (a b : ℤ) (l : List ℤ) : a ∈ insSorted b l ↔ a = b ∨ a ∈ l := by
  induction l with
  | nil => simp [insSorted]
  | cons z zs ih =>
    by_cases h1 : b < z
    · rw [insSorted_cons, if_pos h1]
      simp only [List.mem_cons]
      try tauto
    · by_cases h2 : b = z
      · subst h2
        rw [insSorted_cons, if_neg h1, if_pos rfl]
        simp only [List.mem_cons]
        try tauto
      · rw [insSorted_cons, if_neg h1, if_neg h2]
        simp only [List.mem_cons, ih]
        try tauto

lemma pairwise_insSorted (b : ℤ) (l : List ℤ) (h : l.Pairwise (· < ·)) :
    (insSorted b l).Pairwise (· < ·) := by
  induction l with
  | nil => simp [insSorted]
  | cons z zs ih =>
    rcases List.pairwise_cons.mp h with ⟨hz, hzs⟩
    by_cases h1 : b < z
    · rw [insSorted_cons, if_pos h1]
      refine List.pairwise_cons.mpr ⟨?_, h⟩
      intro w hw
      rcases List.mem_cons.mp hw with rfl | hw
      · exact h1
      · exact lt_trans h1 (hz w hw)
    · by_cases h2 : b = z
      · subst h2
        rw [insSorted_cons, if_neg h1, if_pos rfl]
        exact h
      · rw [insSorted_cons, if_neg h1, if_neg h2]
        refine List.pairwise_cons.mpr ⟨?_, ih hzs⟩
        intro w hw
        rcases (mem_insSorted w b zs).mp hw with rfl | hw
        · exact lt_of_le_of_ne (not_lt.mp h1) (fun he => h2 he.symm)
        · exact hz w hw

lemma pairwise_sortedKeys (f : Row → ℤ) (df : List Row) :
    (sortedKeys f df).Pairwise (· < ·) := by
  induction df with
  | nil => simp [sortedKeys]
  | cons r rs ih => exact pairwise_insSorted (f r) (sortedKeys f rs) ih

lemma nodup_sortedKeys (f : Row → ℤ) (df : List Row) : (sortedKeys f df).Nodup :=
  (pairwise_sortedKeys f df).imp (fun h => ne_of_lt h)

lemma mem_sortedKeys (f : Row → ℤ) (df : List Row) (y : ℤ) :
    y ∈ sortedKeys f df ↔ ∃ r ∈ df, f r = y := by
  induction df with
  | nil => simp [sortedKeys]
  | cons r rs ih =>
    show y ∈ insSorted (f r) (sortedKeys f rs) ↔ _
    rw [mem_insSorted, ih]
    constructor
    · rintro (rfl | ⟨r1, hr1, rfl⟩)
      · exact ⟨r, List.mem_cons_self r rs, rfl⟩
      · exact ⟨r1, List.mem_cons_of_mem _ hr1, rfl⟩
    · rintro ⟨r1, hr1, rfl⟩
      rcases List.mem_cons.mp hr1 with rfl | h
      · exact Or.inl rfl
      · exact Or.inr ⟨r1, h, rfl⟩

lemma find?_pair_eq (df : List Row) (hnd : hasDupPair df = false) (r : Row) (hr : r ∈ df) :
    df.find? (fun s => s.day == r.day && s.year == r.year) = some r := by
  induction df with
  | nil => cases hr
  | cons h t ih =>
    have hsplit : t.any (fun s => s.year == h.year && s.day == h.day) = false ∧
        hasDupPair t = false := by
      simpa [hasDupPair, Bool.or_eq_false_iff] using hnd
    rcases List.mem_cons.mp hr with rfl | hrt
    · rw [List.find?_cons_of_pos _ (by simp)]
    · cases hb : (h.day == r.day && h.year == r.year) with
      | true =>
        exfalso
        have hb2 : h.day = r.day ∧ h.year = r.year := by simpa using hb
        have hany : t.any (fun s => s.year == h.year && s.day == h.day) = true := by
          refine List.any_eq_true.mpr ⟨r, hrt, ?_⟩
          simp [hb2.1, hb2.2]
        rw [hany] at hsplit
        exact Bool.noConfusion hsplit.1
      | false =>
        rw [List.find?_cons_of_neg _ (by simp [hb])]
        exact ih hsplit.2 hrt

lemma getD_map_indexOf {β : Type} (f : ℤ → β) (l : List ℤ) (a : ℤ) (ha : a ∈ l) (d : β) :
    (l.map f).getD (l.indexOf a) d = f a := by
  have hlt : l.indexOf a < l.length := List.indexOf_lt_length.mpr ha
  rw [List.getD_eq_getElem?_getD, List.getElem?_map, List.getElem?_eq_getElem hlt,
    List.getElem_indexOf hlt]
  rfl

lemma getD_map_indexOf_notMem {β : Type} (f : ℤ → β) (l : List ℤ) (a : ℤ) (ha : a ∉ l) (d : β) :
    (l.map f).getD (l.indexOf a) d = d := by
  apply List.getD_eq_default
  simpa using (List.indexOf_eq_length.mpr ha).ge

lemma cellAt_pivotGrid_mem (df : List Row) (d y : ℤ)
    (hd : d ∈ sortedDays df) (hy : y ∈ sortedYears df) :
    (pivotGrid df).cellAt d y = cellLookup df d y := by
  show ((((sortedDays df).map fun d => (sortedYears df).map fun y => cellLookup df d y).getD
    ((sortedDays df).indexOf d) []).getD ((sortedYears df).indexOf y) none) = _
  rw [getD_map_indexOf _ _ _ hd, getD_map_indexOf _ _ _ hy]

lemma cellAt_pivotGrid_absent (df : List Row) (d y : ℤ)
    (habs : ∀ r ∈ df, ¬(r.day = d ∧ r.year = y)) :
    (pivotGrid df).cellAt d y = none := by
  by_cases hd : d ∈ sortedDays df
  · by_cases hy : y ∈ sortedYears df
    · rw [cellAt_pivotGrid_mem df d y hd hy]
      unfold cellLookup
      rw [List.find?_eq_none.mpr ?_]
      intro r hr hp
      have hp2 : r.day = d ∧ r.year = y := by simpa using hp
      exact habs r hr hp2
    · show ((((sortedDays df).map fun d => (sortedYears df).map fun y => cellLookup df d y).getD
        ((sortedDays df).indexOf d) []).getD ((sortedYears df).indexOf y) none) = _
      rw [getD_map_indexOf _ _ _ hd, getD_map_indexOf_notMem _ _ _ hy]
  · show ((((sortedDays df).map fun d => (sortedYears df).map fun y => cellLookup df d y).getD
      ((sortedDays df).indexOf d) []).getD ((sortedYears df).indexOf y) none) = _
    rw [getD_map_indexOf_notMem _ _ _ hd]
    rfl

lemma cellAt_pivotGrid_row (df : List Row) (hnd : hasDupPair df = false)
    (r : Row) (hr : r ∈ df) :
    (pivotGrid df).cellAt r.day r.year = r.max_temp := by
  have hd : r.day ∈ sortedDays df := (mem_sortedKeys _ df _).mpr ⟨r, hr, rfl⟩
  have hy : r.year ∈ sortedYears df := (mem_sortedKeys _ df _).mpr ⟨r, hr, rfl⟩
  rw [cellAt_pivotGrid_mem df _ _ hd hy]
  unfold cellLookup
  rw [find?_pair_eq df hnd r hr]

/-! ### Helper lemmas for list folds and sums (summary statistics) -/

lemma le_foldl_max (l : List ℚ) (x : ℚ) : ∀ v ∈ x :: l, v ≤ l.foldl max x := by
  induction l generalizing x with
  | nil =>
    intro v hv
    rcases List.mem_cons.mp hv with rfl | h
    · exact le_refl v
    · cases h
  | cons y ys ih =>
    intro v hv
    have base := ih (max x y)
    rcases List.mem_cons.mp hv with rfl | hv
    · exact le_trans (le_max_left v y) (base _ (List.mem_cons_self _ _))
    · rcases List.mem_cons.mp hv with rfl | hv2
      · exact le_trans (le_max_right x v) (base _ (List.mem_cons_self _ _))
      · exact base v (List.mem_cons_of_mem _ hv2)

lemma foldl_min_le (l : List ℚ) (x : ℚ) : ∀ v ∈ x :: l, l.foldl min x ≤ v := by
  induction l generalizing x with
  | nil =>
    intro v hv
    rcases List.mem_cons.mp hv with rfl | h
    · exact le_refl v
    · cases h
  | cons y ys ih =>
    intro v hv
    have base := ih (min x y)
    rcases List.mem_cons.mp hv with rfl | hv
    · exact le_trans (base _ (List.mem_cons_self _ _)) (min_le_left v y)
    · rcases List.mem_cons.mp hv with rfl | hv2
      · exact le_trans (base _ (List.mem_cons_self _ _)) (min_le_right x v)
      · exact base v (List.mem_cons_of_mem _ hv2)

lemma foldl_max_mem (l : List ℚ) (x : ℚ) : l.foldl max x ∈ x :: l := by
  induction l generalizing x with
  | nil => exact List.mem_cons_self x []
  | cons y ys ih =>
    have h := ih (max x y)
    rcases List.mem_cons.mp h with he | hm
    · rcases max_choice x y with hc | hc
      · rw [show (y :: ys).foldl max x = ys.foldl max (max x y) from rfl, he, hc]
        exact List.mem_cons_self _ _
      · rw [show (y :: ys).foldl max x = ys.foldl max (max x y) from rfl, he, hc]
        exact List.mem_cons_of_mem _ (List.mem_cons_self _ _)
    · rw [show (y :: ys).foldl max x = ys.foldl max (max x y) from rfl]
      exact List.mem_cons_of_mem _ (List.mem_cons_of_mem _ hm)

lemma foldl_min_mem (l : List ℚ) (x : ℚ) : l.foldl min x ∈ x :: l := by
  induction l generalizing x with
  | nil => exact List.mem_cons_self x []
  | cons y ys ih =>
    have h := ih (min x y)
    rcases List.mem_cons.mp h with he | hm
    · rcases min_choice x y with hc | hc
      · rw [show (y :: ys).foldl min x = ys.foldl min (min x y) from rfl, he, hc]
        exact List.mem_cons_self _ _
      · rw [show (y :: ys).foldl min x = ys.foldl min (min x y) from rfl, he, hc]
        exact List.mem_cons_of_mem _ (List.mem_cons_self _ _)
    · rw [show (y :: ys).foldl min x = ys.foldl min (min x y) from rfl]
      exact List.mem_cons_of_mem _ (List.mem_cons_of_mem _ hm)

lemma list_sum_le_length_mul (l : List ℚ) (M : ℚ) (h : ∀ v ∈ l, v ≤ M) :
    l.sum ≤ (l.length : ℚ) * M := by
  induction l with
  | nil => simp
  | cons x xs ih =>
    have h1 := ih (fun v hv => h v (List.mem_cons_of_mem _ hv))
    have h2 := h x (List.mem_cons_self _ _)
    simp only [List.sum_cons, List.length_cons]
    push_cast
    nlinarith

lemma list_length_mul_le_sum (l : List ℚ) (m : ℚ) (h : ∀ v ∈ l, m ≤ v) :
    (l.length : ℚ) * m ≤ l.sum := by
  induction l with
  | nil => simp
  | cons x xs ih =>
    have h1 := ih (fun v hv => h v (List.mem_cons_of_mem _ hv))
    have h2 := h x (List.mem_cons_self _ _)
    simp only [List.sum_cons, List.length_cons]
    push_cast
    nlinarith

/-! ### Helper lemmas for the least-squares slope sign analysis -/

lemma Sx_cons (p : ℚ × ℚ) (l : List (ℚ × ℚ)) : Sx (p :: l) = p.1 + Sx l := by
  simp [Sx]

lemma Sy_cons (p : ℚ × ℚ) (l : List (ℚ × ℚ)) : Sy (p :: l) = p.2 + Sy l := by
  simp [Sy]

lemma Sxy_cons (p : ℚ × ℚ) (l : List (ℚ × ℚ)) : Sxy (p :: l) = p.1 * p.2 + Sxy l := by
  simp [Sxy]

lemma map_cross_expand (p : ℚ × ℚ) (l : List (ℚ × ℚ)) :
    (l.map (fun q => (q.1 - p.1) * (q.2 - p.2))).sum
      = Sxy l - p.1 * Sy l - p.2 * Sx l + (l.length : ℚ) * (p.1 * p.2) := by
  induction l with
  | nil => simp [Sxy, Sy, Sx]
  | cons q m ih =>
    simp only [List.map_cons, List.sum_cons, Sxy_cons, Sy_cons, Sx_cons, List.length_cons]
    rw [ih]
    push_cast
    ring

lemma lsNum_eq_crossSum (l : List (ℚ × ℚ)) : lsNum l = crossSum l := by
  induction l with
  | nil => simp [lsNum, crossSum, Sxy, Sx, Sy]
  | cons p m ih =>
    show lsNum (p :: m) = (m.map (fun q => (q.1 - p.1) * (q.2 - p.2))).sum + crossSum m
    rw [map_cross_expand, ← ih]
    simp only [lsNum, Sxy_cons, Sx_cons, Sy_cons, List.length_cons]
    push_cast
    ring

lemma lsDen_eq_lsNum_diag (l : List (ℚ × ℚ)) :
    lsDen l = lsNum (l.map (fun p => (p.1, p.1))) := by
  simp only [lsDen, lsNum, Sx, Sy, Sxy, Sxx, List.map_map, Function.comp_def, List.length_map]

lemma crossSum_nonneg (l : List (ℚ × ℚ)) (hx : l.Pairwise (fun p q => p.1 < q.1))
    (hy : l.Pairwise (fun p q => p.2 ≤ q.2)) : 0 ≤ crossSum l := by
  induction l with
  | nil => simp [crossSum]
  | cons p m ih =>
    rcases List.pairwise_cons.mp hx with ⟨hxp, hxm⟩
    rcases List.pairwise_cons.mp hy with ⟨hyp, hym⟩
    have h1 : 0 ≤ (m.map (fun q => (q.1 - p.1) * (q.2 - p.2))).sum := by
      apply List.sum_nonneg
      intro x hx2
      rcases List.mem_map.mp hx2 with ⟨q, hq, rfl⟩
      have ha := hxp q hq
      have hb := hyp q hq
      nlinarith
    have h2 := ih hxm hym
    show 0 ≤ (m.map (fun q => (q.1 - p.1) * (q.2 - p.2))).sum + crossSum m
    linarith

lemma crossSum_pos (p : ℚ × ℚ) (m : List (ℚ × ℚ)) (q : ℚ × ℚ) (hq : q ∈ m)
    (hx : (p :: m).Pairwise (fun s r => s.1 < r.1))
    (hy : (p :: m).Pairwise (fun s r => s.2 ≤ r.2))
    (hpq : p.2 < q.2) : 0 < crossSum (p :: m) := by
  rcases List.pairwise_cons.mp hx with ⟨hxp, hxm⟩
  rcases List.pairwise_cons.mp hy with ⟨hyp, hym⟩
  have hall : ∀ x ∈ m.map (fun r => (r.1 - p.1) * (r.2 - p.2)), 0 ≤ x := by
    intro x hx2
    rcases List.mem_map.mp hx2 with ⟨r, hr, rfl⟩
    have ha := hxp r hr
    have hb := hyp r hr
    nlinarith
  have hterm : 0 < (q.1 - p.1) * (q.2 - p.2) := by
    have := hxp q hq
    nlinarith
  have hmem : (q.1 - p.1) * (q.2 - p.2) ∈ m.map (fun r => (r.1 - p.1) * (r.2 - p.2)) :=
    List.mem_map.mpr ⟨q, hq, rfl⟩
  have hsum := List.single_le_sum hall _ hmem
  have hrest : 0 ≤ crossSum m := crossSum_nonneg m hxm hym
  show 0 < (m.map (fun r => (r.1 - p.1) * (r.2 - p.2))).sum + crossSum m
  linarith

lemma crossSum_eq_zero (l : List (ℚ × ℚ)) (h : ∀ a ∈ l, ∀ b ∈ l, a.2 = b.2) :
    crossSum l = 0 := by
  induction l with
  | nil => simp [crossSum]
  | cons p m ih =>
    have h1 : (m.map (fun q => (q.1 - p.1) * (q.2 - p.2))).sum = 0 := by
      apply List.sum_eq_zero
      intro x hx
      rcases List.mem_map.mp hx with ⟨q, hq, rfl⟩
      have hq2 : q.2 = p.2 :=
        h q (List.mem_cons_of_mem _ hq) p (List.mem_cons_self _ _)
      rw [hq2]
      ring
    have h2 := ih (fun a ha b hb => h a (List.mem_cons_of_mem _ ha) b (List.mem_cons_of_mem _ hb))
    show (m.map (fun q => (q.1 - p.1) * (q.2 - p.2))).sum + crossSum m = 0
    rw [h1, h2, add_zero]

lemma Sx_map_negSnd (l : List (ℚ × ℚ)) : Sx (l.map (fun p => (p.1, -p.2))) = Sx l := by
  induction l with
  | nil => rfl
  | cons p m ih => simp only [List.map_cons, Sx_cons, ih]

lemma Sy_map_negSnd (l : List (ℚ × ℚ)) : Sy (l.map (fun p => (p.1, -p.2))) = -Sy l := by
  induction l with
  | nil => simp [Sy]
  | cons p m ih =>
    simp only [List.map_cons, Sy_cons, ih]
    ring

lemma Sxy_map_negSnd (l : List (ℚ × ℚ)) : Sxy (l.map (fun p => (p.1, -p.2))) = -Sxy l := by
  induction l with
  | nil => simp [Sxy]
  | cons p m ih =>
    simp only [List.map_cons, Sxy_cons, ih]
    ring

lemma Sxx_map_negSnd (l : List (ℚ × ℚ)) : Sxx (l.map (fun p => (p.1, -p.2))) = Sxx l := by
  induction l with
  | nil => rfl
  | cons p m ih => simp only [List.map_cons, Sxx, List.map_cons, List.sum_cons] at ih ⊢; rw [ih]

lemma lsNum_map_negSnd (l : List (ℚ × ℚ)) :
    lsNum (l.map (fun p => (p.1, -p.2))) = -lsNum l := by
  simp only [lsNum, Sx_map_negSnd, Sy_map_negSnd, Sxy_map_negSnd, List.length_map]
  ring

lemma lsDen_map_negSnd (l : List (ℚ × ℚ)) :
    lsDen (l.map (fun p => (p.1, -p.2))) = lsDen l := by
  simp only [lsDen, Sx_map_negSnd, Sxx_map_negSnd, List.length_map]

lemma mem_getLastD {α : Type} (a : α) (t : List α) (d : α) :
    (a :: t).getLastD d ∈ a :: t := by
  rw [List.getLastD_cons]
  exact List.getLastD_mem_cons t a

lemma pairwise_rel_getLastD {α : Type} (R : α → α → Prop) (hrefl : ∀ a, R a a)
    (x : α) (xs : List α) (d : α) (hp : (x :: xs).Pairwise R) :
    ∀ z ∈ x :: xs, R z ((x :: xs).getLastD d) := by
  induction xs generalizing x with
  | nil =>
    intro z hz
    rcases List.mem_cons.mp hz with rfl | h2
    · exact hrefl z
    · cases h2
  | cons y ys ih =>
    intro z hz
    rcases List.pairwise_cons.mp hp with ⟨hx, hrest⟩
    rcases List.mem_cons.mp hz with rfl | hz2
    · exact hx _ (mem_getLastD y ys d)
    · exact ih y hrest z hz2

lemma pairwise_rel_headD {α : Type} (R : α → α → Prop) (hrefl : ∀ a, R a a)
    (x : α) (xs : List α) (hp : (x :: xs).Pairwise R) :
    ∀ z ∈ x :: xs, R x z := by
  intro z hz
  rcases List.mem_cons.mp hz with rfl | hz2
  · exact hrefl z
  · exact (List.pairwise_cons.mp hp).1 z hz2

lemma lsNum_pos_of_mono (a : ℚ × ℚ) (m : List (ℚ × ℚ))
    (hx : (a :: m).Pairwise (fun p q => p.1 < q.1))
    (hy : (a :: m).Pairwise (fun p q => p.2 ≤ q.2))
    (hgt : a.2 < ((a :: m).getLastD (0, 0)).2) : 0 < lsNum (a :: m) := by
  rw [lsNum_eq_crossSum]
  cases m with
  | nil =>
    rw [List.getLastD_cons, List.getLastD_nil] at hgt
    exact absurd hgt (lt_irrefl _)
  | cons b t =>
    refine crossSum_pos a (b :: t) ((a :: b :: t).getLastD (0, 0)) ?_ hx hy hgt
    rw [List.getLastD_cons]
    exact mem_getLastD b t a

lemma lsNum_zero_of_mono_le (a : ℚ × ℚ) (m : List (ℚ × ℚ))
    (hy : (a :: m).Pairwise (fun p q => p.2 ≤ q.2))
    (heq : ((a :: m).getLastD (0, 0)).2 = a.2) : lsNum (a :: m) = 0 := by
  rw [lsNum_eq_crossSum]
  apply crossSum_eq_zero
  have hub : ∀ z ∈ a :: m, z.2 ≤ ((a :: m).getLastD (0, 0)).2 := by
    intro z hz
    exact (pairwise_rel_getLastD (fun s r : ℚ × ℚ => s.2 ≤ r.2)
      (fun _ => le_refl _) a m (0, 0) hy) z hz
  have hlb : ∀ z ∈ a :: m, a.2 ≤ z.2 :=
    pairwise_rel_headD (fun s r : ℚ × ℚ => s.2 ≤ r.2) (fun _ => le_refl _) a m hy
  intro z hz w hw
  have h1 := hub z hz
  have h2 := hlb z hz
  have h3 := hub w hw
  have h4 := hlb w hw
  rw [heq] at h1 h3
  linarith

lemma lsNum_zero_of_mono_ge (a : ℚ × ℚ) (m : List (ℚ × ℚ))
    (hy : (a :: m).Pairwise (fun p q => q.2 ≤ p.2))
    (heq : ((a :: m).getLastD (0, 0)).2 = a.2) : lsNum (a :: m) = 0 := by
  rw [lsNum_eq_crossSum]
  apply crossSum_eq_zero
  have hub : ∀ z ∈ a :: m, ((a :: m).getLastD (0, 0)).2 ≤ z.2 := by
    intro z hz
    exact (pairwise_rel_getLastD (fun s r : ℚ × ℚ => r.2 ≤ s.2)
      (fun _ => le_refl _) a m (0, 0) hy) z hz
  have hlb : ∀ z ∈ a :: m, z.2 ≤ a.2 :=
    pairwise_rel_headD (fun s r : ℚ × ℚ => r.2 ≤ s.2) (fun _ => le_refl _) a m hy
  intro z hz w hw
  have h1 := hub z hz
  have h2 := hlb z hz
  have h3 := hub w hw
  have h4 := hlb w hw
  rw [heq] at h1 h3
  linarith

lemma lsDen_pos (a b : ℚ × ℚ) (t : List (ℚ × ℚ))
    (hx : (a :: b :: t).Pairwise (fun s r => s.1 < r.1)) :
    0 < lsDen (a :: b :: t) := by
  rw [lsDen_eq_lsNum_diag, lsNum_eq_crossSum]
  simp only [List.map_cons]
  refine crossSum_pos (a.1, a.1) ((b.1, b.1) :: t.map (fun p => (p.1, p.1))) (b.1, b.1)
    (List.mem_cons_self _ _) ?_ ?_ ?_
  · have hmap : (((a :: b :: t).map (fun p : ℚ × ℚ => (p.1, p.1))).Pairwise
        (fun s r => s.1 < r.1)) :=
      hx.map _ (fun s r h => h)
    simp only [List.map_cons] at hmap
    exact hmap
  · have hmap : (((a :: b :: t).map (fun p : ℚ × ℚ => (p.1, p.1))).Pairwise
        (fun s r => s.2 ≤ r.2)) :=
      hx.map _ (fun s r h => le_of_lt h)
    simp only [List.map_cons] at hmap
    exact hmap
  · exact (List.pairwise_cons.mp hx).1 b (List.mem_cons_self _ _)

lemma polyfitSlope_cons_cons_allSome (a b : ℤ × ℚ) (t : List (ℤ × ℚ)) :
    polyfitSlope ((a :: b :: t).map (fun p => (p.1, some p.2)))
      = some (slopeR ((a :: b :: t).map (fun p => ((p.1 : ℚ), p.2)))) := by
  have hany : ((a :: b :: t).map (fun p : ℤ × ℚ => (p.1, some p.2))).any
      (fun p => p.2.isNone) = false := by
    refine List.any_eq_false.mpr ?_
    intro p hp
    rcases List.mem_map.mp hp with ⟨q, hq, rfl⟩
    simp
  simp only [List.map_cons] at hany ⊢
  simp only [polyfitSlope]
  rw [if_neg (by simp [hany])]
  simp [List.map_map, Function.comp_def]

lemma pipeline_ok (df : List Row) (hne : df.isEmpty = false) (hnd : hasDupPair df = false) :
    pipeline df = Except.ok
      { yearly := yearly_avg df
        slope := polyfitSlope (yearly_avg df)
        overall_mean := seriesMean (colVals df)
        overall_max := seriesMax (colVals df)
        overall_min := seriesMin (colVals df)
        direction := trend_direction (polyfitSlope (yearly_avg df))
        magnitude := trend_magnitude (polyfitSlope (yearly_avg df))
        total_years := (yearly_avg df).length
        grid := pivotGrid df } := by
  simp [pipeline, pivot, hne, hnd]

lemma pipeline_dup_error (df : List Row) (hdup : hasDupPair df = true) :
    pipeline df =
      Except.error "An error occurred: Index contains duplicate entries, cannot reshape" := by
  have hne : df.isEmpty = false := by
    cases df with
    | nil => simp [hasDupPair] at hdup
    | cons r rs => rfl
  simp [pipeline, pivot, hne, hdup]

/-! ### The claims -/

/-- Claim C1: the spec requires `InsufficientDataError` when there are
fewer than 2 Yearly Averages, and its design notes flag the code's
single-point fit as a latent defect.  The code indeed violates the claim:
on the single yearly average (2021, 20.0) the `np.polyfit` call (line 93)
returns the minimum-norm slope 10/2021 and line 104 even classifies it as
a Rising trend — no error is raised (no such error class exists). -/
theorem C1_single_point_fit :
    polyfitSlope [((2021 : ℤ), some (20 : ℚ))] = some (10 / 2021) ∧
    trend_direction (polyfitSlope [((2021 : ℤ), some (20 : ℚ))]) = "Rising" := by
  have h : polyfitSlope [((2021 : ℤ), some (20 : ℚ))] = some (10 / 2021) := by
    norm_num [polyfitSlope]
  refine ⟨h, ?_⟩
  rw [h]
  have hgt : pyGt (some ((10 : ℚ) / 2021)) 0 = true := by
    simp only [pyGt, decide_eq_true_eq]
    norm_num
  simp [trend_direction, hgt]

/-- Claim C2 (counterexample): an input whose only row has day 42 and year
2100 — day outside 1..31 and year outside any 30-year window — is not
rejected with `MalformedInputError`: the pipeline runs to completion and
produces a result bundle. -/
theorem C2_out_of_range_counterexample :
    (pipeline [⟨2100, 42, some 5⟩]).toOption.isSome = true := by decide

/-- Claim C2 (amended): the code performs no input validation at all.  A
duplicate `(year, day)` pair is not rejected at construction; it surfaces
only at the pivot (line 117) as a pandas `ValueError` caught by the
generic `except Exception` handler (line 175) — a different error kind —
while a day outside 1..31 or a year outside the 30-year window is
processed without any error. -/
theorem C2_no_validation_amended :
    (∀ df : List Row, hasDupPair df = true →
      pipeline df =
        Except.error "An error occurred: Index contains duplicate entries, cannot reshape") ∧
    (pipeline [⟨2100, 42, some 5⟩]).toOption.isSome = true :=
  ⟨fun df h => pipeline_dup_error df h, by decide⟩

/-- Witness for C2_no_validation_amended at a concrete duplicated input. -/
theorem C2_no_validation_amended_witness :
    pipeline [⟨2000, 5, some 1⟩, ⟨2000, 5, some 2⟩] =
      Except.error "An error occurred: Index contains duplicate entries, cannot reshape" :=
  C2_no_validation_amended.1 _ (by decide)

/-- Claim C3 (counterexample): with year 2000 entirely missing and year
2001 present, `groupby('year')['max_temp'].mean()` keeps year 2000 as a
NaN-valued entry — the year is not omitted from the Yearly Averages. -/
theorem C3_all_missing_year_counterexample :
    yearly_avg [⟨2000, 1, none⟩, ⟨2001, 1, some 20⟩] = [(2000, none), (2001, some 20)] ∧
    ((2000 : ℤ), (none : Option ℚ)) ∈ yearly_avg [⟨2000, 1, none⟩, ⟨2001, 1, some 20⟩] := by
  have h : yearly_avg [⟨2000, 1, none⟩, ⟨2001, 1, some 20⟩]
      = [(2000, none), (2001, some 20)] := by
    norm_num [yearly_avg, yearMean, yearVals, seriesMean, sortedYears, sortedKeys, insSorted,
      List.filterMap_cons]
    exact fun h => nomatch h
  exact ⟨h, by rw [h]; exact List.mem_cons_self _ _⟩

/-- Claim C3 (amended): a year present in the Observation Set all of whose
observations are missing appears in the Yearly Averages as a `(year, NaN)`
entry rather than being omitted. -/
theorem C3_all_missing_year_amended (df : List Row) (y : ℤ)
    (hy : ∃ r ∈ df, r.year = y) (hmiss : yearVals df y = []) :
    (y, (none : Option ℚ)) ∈ yearly_avg df := by
  have hys : y ∈ sortedYears df := (mem_sortedKeys _ df y).mpr hy
  have hm : yearMean df y = none := by simp [yearMean, seriesMean, hmiss]
  exact List.mem_map.mpr ⟨y, hys, by rw [hm]⟩

/-- Witness for C3_all_missing_year_amended at a concrete input. -/
theorem C3_all_missing_year_amended_witness :
    ((2000 : ℤ), (none : Option ℚ)) ∈ yearly_avg [⟨2000, 1, none⟩, ⟨2001, 1, some 20⟩] :=
  C3_all_missing_year_amended _ 2000 ⟨⟨2000, 1, none⟩, List.mem_cons_self _ _, rfl⟩ rfl

/-- Claim C4: for a duplicate-free Observation Set the pivot succeeds and
the Grid has exactly one row per distinct day value, one column per
distinct year, the cell of a present `(day, year)` pair holds that
Observation's value, and an absent pair yields the missing marker `none`
(never zero, never imputed). -/
theorem C4_grid_shape (df : List Row) (hnd : hasDupPair df = false) :
    ∃ g : Grid, pivot df = Except.ok g ∧
      g.index.Nodup ∧ (∀ d : ℤ, d ∈ g.index ↔ ∃ r ∈ df, r.day = d) ∧
      g.columns.Nodup ∧ (∀ y : ℤ, y ∈ g.columns ↔ ∃ r ∈ df, r.year = y) ∧
      (∀ r ∈ df, g.cellAt r.day r.year = r.max_temp) ∧
      (∀ d y : ℤ, (∀ r ∈ df, ¬(r.day = d ∧ r.year = y)) → g.cellAt d y = none) := by
  refine ⟨pivotGrid df, ?_, ?_, ?_, ?_, ?_, ?_, ?_⟩
  · simp [pivot, hnd]
  · exact nodup_sortedKeys _ df
  · exact fun d => mem_sortedKeys _ df d
  · exact nodup_sortedKeys _ df
  · exact fun y => mem_sortedKeys _ df y
  · exact fun r hr => cellAt_pivotGrid_row df hnd r hr
  · exact fun d y habs => cellAt_pivotGrid_absent df d y habs

/-- Witness for C4_grid_shape at a concrete duplicate-free input. -/
theorem C4_grid_shape_witness :
    ∃ g : Grid, pivot [⟨2000, 1, some 10⟩, ⟨2001, 2, none⟩] = Except.ok g ∧
      g.index.Nodup ∧
      (∀ d : ℤ, d ∈ g.index ↔ ∃ r ∈ [Row.mk 2000 1 (some 10), Row.mk 2001 2 none], r.day = d) ∧
      g.columns.Nodup ∧
      (∀ y : ℤ, y ∈ g.columns ↔ ∃ r ∈ [Row.mk 2000 1 (some 10), Row.mk 2001 2 none], r.year = y) ∧
      (∀ r ∈ [Row.mk 2000 1 (some 10), Row.mk 2001 2 none],
        g.cellAt r.day r.year = r.max_temp) ∧
      (∀ d y : ℤ, (∀ r ∈ [Row.mk 2000 1 (some 10), Row.mk 2001 2 none],
        ¬(r.day = d ∧ r.year = y)) → g.cellAt d y = none) :=
  C4_grid_shape [⟨2000, 1, some 10⟩, ⟨2001, 2, none⟩] (by decide)

/-- Claim C5 (counterexample): an Observation Set with one row whose value
is missing has zero non-missing values, yet no `InsufficientDataError` is
raised (the class does not exist): the pipeline returns a bundle whose
overall mean, max and min are all NaN (`none`). -/
theorem C5_no_values_counterexample :
    (pipeline [⟨2000, 1, none⟩]).toOption.map
      (fun b => (b.overall_mean, b.overall_max, b.overall_min)) = some (none, none, none) := by
  decide

/-- Claim C5 (amended): the summary metrics (lines 99-101) are computed
directly over every non-missing Observation value — the mean is their sum
divided by their count (each day weighted equally), the max/min are
attained values bounding all of them — and when the set has zero non-missing
values the three statistics are NaN (`none`) instead of an error. -/
theorem C5_summary_stats_amended (df : List Row) :
    (colVals df ≠ [] →
      seriesMean (colVals df) = some ((colVals df).sum / ((colVals df).length : ℚ)) ∧
      (∃ M ∈ colVals df, seriesMax (colVals df) = some M ∧ ∀ v ∈ colVals df, v ≤ M) ∧
      (∃ m ∈ colVals df, seriesMin (colVals df) = some m ∧ ∀ v ∈ colVals df, m ≤ v)) ∧
    (colVals df = [] →
      seriesMean (colVals df) = none ∧ seriesMax (colVals df) = none ∧
      seriesMin (colVals df) = none) := by
  constructor
  · intro hne
    cases hv : colVals df with
    | nil => exact absurd hv hne
    | cons v t =>
      refine ⟨by simp [seriesMean], ⟨t.foldl max v, foldl_max_mem t v, rfl, le_foldl_max t v⟩,
        ⟨t.foldl min v, foldl_min_mem t v, rfl, foldl_min_le t v⟩⟩
  · intro hz
    rw [hz]
    exact ⟨rfl, rfl, rfl⟩

/-- Witness for C5_summary_stats_amended at a concrete input. -/
theorem C5_summary_stats_amended_witness :
    seriesMean (colVals [⟨2000, 1, some 3⟩, ⟨2000, 2, some 5⟩]) =
      some ((colVals [Row.mk 2000 1 (some 3), Row.mk 2000 2 (some 5)]).sum /
        ((colVals [Row.mk 2000 1 (some 3), Row.mk 2000 2 (some 5)]).length : ℚ)) ∧
    (∃ M ∈ colVals [Row.mk 2000 1 (some 3), Row.mk 2000 2 (some 5)],
      seriesMax (colVals [Row.mk 2000 1 (some 3), Row.mk 2000 2 (some 5)]) = some M ∧
      ∀ v ∈ colVals [Row.mk 2000 1 (some 3), Row.mk 2000 2 (some 5)], v ≤ M) ∧
    (∃ m ∈ colVals [Row.mk 2000 1 (some 3), Row.mk 2000 2 (some 5)],
      seriesMin (colVals [Row.mk 2000 1 (some 3), Row.mk 2000 2 (some 5)]) = some m ∧
      ∀ v ∈ colVals [Row.mk 2000 1 (some 3), Row.mk 2000 2 (some 5)], m ≤ v) :=
  (C5_summary_stats_amended [⟨2000, 1, some 3⟩, ⟨2000, 2, some 5⟩]).1 (by decide)

/-- Claim C6 (counterexample): a NaN slope — produced here from two years
whose observations are all missing — is classified "Stable" although
`slope == 0` is false for NaN, refuting "Stable exactly when slope == 0"
over the values the Trend Estimator actually produces. -/
theorem C6_direction_counterexample :
    polyfitSlope (yearly_avg [⟨2000, 1, none⟩, ⟨2001, 1, none⟩]) = none ∧
    trend_direction (polyfitSlope (yearly_avg [⟨2000, 1, none⟩, ⟨2001, 1, none⟩])) = "Stable" ∧
    pyEq (polyfitSlope (yearly_avg [⟨2000, 1, none⟩, ⟨2001, 1, none⟩])) 0 = false := by
  decide

/-- Claim C6 (amended): the classification is Rising exactly when
`slope > 0`, Falling exactly when `slope < 0`, and Stable exactly when
neither comparison holds — which for a real (non-NaN) slope is exactly
`slope == 0`, and also captures a NaN slope. -/
theorem C6_direction_amended (s : Option ℚ) :
    (trend_direction s = "Rising" ↔ pyGt s 0 = true) ∧
    (trend_direction s = "Falling" ↔ pyLt s 0 = true) ∧
    (trend_direction s = "Stable" ↔ (pyGt s 0 = false ∧ pyLt s 0 = false)) ∧
    (∀ q : ℚ, s = some q → (trend_direction s = "Stable" ↔ q = 0)) := by
  cases s with
  | none =>
    refine ⟨by decide, by decide, by decide, ?_⟩
    exact fun q hq => nomatch hq
  | some q =>
    have hFR : ("Falling" : String) ≠ "Rising" := by decide
    have hSR : ("Stable" : String) ≠ "Rising" := by decide
    have hRF : ("Rising" : String) ≠ "Falling" := by decide
    have hSF : ("Stable" : String) ≠ "Falling" := by decide
    have hRS : ("Rising" : String) ≠ "Stable" := by decide
    have hFS : ("Falling" : String) ≠ "Stable" := by decide
    rcases lt_trichotomy q 0 with h | h | h
    · have hgt : pyGt (some q) 0 = false := by
        simp only [pyGt, decide_eq_false_iff_not]
        exact asymm h
      have hlt : pyLt (some q) 0 = true := by
        simp only [pyLt, decide_eq_true_eq]
        exact h
      have hdir : trend_direction (some q) = "Falling" := by
        simp [trend_direction, hgt, hlt]
      refine ⟨?_, ?_, ?_, ?_⟩
      · rw [hdir]; simp [hFR, hgt]
      · rw [hdir]; simp [hlt]
      · rw [hdir]; simp [hFS, hlt]
      · intro q2 hq2
        injection hq2 with hq3
        subst hq3
        rw [hdir]
        constructor
        · intro hh; exact absurd hh hFS
        · intro h0; rw [h0] at h; exact absurd h (lt_irrefl 0)
    · subst h
      have hgt : pyGt (some (0 : ℚ)) 0 = false := by simp [pyGt]
      have hlt : pyLt (some (0 : ℚ)) 0 = false := by simp [pyLt]
      have hdir : trend_direction (some (0 : ℚ)) = "Stable" := by
        simp [trend_direction, hgt, hlt]
      refine ⟨?_, ?_, ?_, ?_⟩
      · rw [hdir]; simp [hSR, hgt]
      · rw [hdir]; simp [hSF, hlt]
      · rw [hdir]; simp [hgt, hlt]
      · intro q2 hq2
        injection hq2 with hq3
        subst hq3
        rw [hdir]
        simp
    · have hgt : pyGt (some q) 0 = true := by
        simp only [pyGt, decide_eq_true_eq]
        exact h
      have hlt : pyLt (some q) 0 = false := by
        simp only [pyLt, decide_eq_false_iff_not]
        exact asymm h
      have hdir : trend_direction (some q) = "Rising" := by
        simp [trend_direction, hgt]
      refine ⟨?_, ?_, ?_, ?_⟩
      · rw [hdir]; simp [hgt]
      · rw [hdir]; simp [hRF, hlt]
      · rw [hdir]; simp [hRS, hgt]
      · intro q2 hq2
        injection hq2 with hq3
        subst hq3
        rw [hdir]
        constructor
        · intro hh; exact absurd hh hRS
        · intro h0; rw [h0] at h; exact absurd h (lt_irrefl 0)

/-- Witness for C6_direction_amended with the inner hypothesis discharged
at slope = some 0. -/
theorem C6_direction_amended_witness :
    trend_direction (some (0 : ℚ)) = "Stable" ↔ (0 : ℚ) = 0 :=
  (C6_direction_amended (some 0)).2.2.2 0 rfl

/-- Claim C7: on the three yearly averages (2021, 20.0), (2022, 21.0),
(2023, 22.0) the least-squares fit gives slope exactly 1, the direction is
Rising, and the magnitude per decade `abs(slope * 10)` is 10. -/
theorem C7_three_year_scenario :
    polyfitSlope [((2021 : ℤ), some (20 : ℚ)), (2022, some 21), (2023, some 22)] = some 1 ∧
    trend_direction
      (polyfitSlope [((2021 : ℤ), some (20 : ℚ)), (2022, some 21), (2023, some 22)]) = "Rising" ∧
    trend_magnitude
      (polyfitSlope [((2021 : ℤ), some (20 : ℚ)), (2022, some 21), (2023, some 22)]) = some 10 := by
  have h : polyfitSlope [((2021 : ℤ), some (20 : ℚ)), (2022, some 21), (2023, some 22)]
      = some 1 := by
    norm_num [polyfitSlope, slopeR, lsNum, lsDen, Sx, Sy, Sxy, Sxx]
  have hgt : pyGt (some (1 : ℚ)) 0 = true := by
    simp only [pyGt, decide_eq_true_eq]
    norm_num
  refine ⟨h, ?_, ?_⟩
  · rw [h]
    simp [trend_direction, hgt]
  · rw [h]
    simp only [trend_magnitude, Option.map_some]
    norm_num

/-- Claim C8: for any Observation Set with at least one non-missing value,
the summary statistics satisfy overall_min ≤ overall_mean ≤ overall_max. -/
theorem C8_min_le_mean_le_max (df : List Row) (h : colVals df ≠ []) :
    ∃ m μ M : ℚ, seriesMin (colVals df) = some m ∧ seriesMean (colVals df) = some μ ∧
      seriesMax (colVals df) = some M ∧ m ≤ μ ∧ μ ≤ M := by
  cases hv : colVals df with
  | nil => exact absurd hv h
  | cons v t =>
    have hlen : (0 : ℚ) < ((v :: t).length : ℚ) := by
      simp only [List.length_cons]
      push_cast
      positivity
    refine ⟨t.foldl min v, (v :: t).sum / ((v :: t).length : ℚ), t.foldl max v,
      rfl, by simp [seriesMean], rfl, ?_, ?_⟩
    · rw [le_div_iff₀ hlen]
      have hb := list_length_mul_le_sum (v :: t) (t.foldl min v) (foldl_min_le t v)
      linarith
    · rw [div_le_iff₀ hlen]
      have hb := list_sum_le_length_mul (v :: t) (t.foldl max v) (le_foldl_max t v)
      linarith

/-- Witness for C8_min_le_mean_le_max at a concrete input. -/
theorem C8_min_le_mean_le_max_witness :
    ∃ m μ M : ℚ, seriesMin (colVals [⟨2000, 1, some 3⟩]) = some m ∧
      seriesMean (colVals [Row.mk 2000 1 (some 3)]) = some μ ∧
      seriesMax (colVals [Row.mk 2000 1 (some 3)]) = some M ∧ m ≤ μ ∧ μ ≤ M :=
  C8_min_le_mean_le_max [⟨2000, 1, some 3⟩] (by decide)

/-- Claim C9: for at least two yearly averages with strictly increasing
years and values monotone (non-decreasing or non-increasing), the sign of
the fitted least-squares slope matches the sign of
last yearly average minus first yearly average. -/
theorem C9_monotone_slope_sign (ya : List (ℤ × ℚ)) (h2 : 2 ≤ ya.length)
    (hx : ya.Pairwise (fun p q => p.1 < q.1))
    (hm : ya.Pairwise (fun p q => p.2 ≤ q.2) ∨ ya.Pairwise (fun p q => q.2 ≤ p.2)) :
    ∃ s : ℚ, polyfitSlope (ya.map (fun p => (p.1, some p.2))) = some s ∧
      ((ya.headD (0, 0)).2 < (ya.getLastD (0, 0)).2 → 0 < s) ∧
      ((ya.getLastD (0, 0)).2 < (ya.headD (0, 0)).2 → s < 0) ∧
      ((ya.getLastD (0, 0)).2 = (ya.headD (0, 0)).2 → s = 0) := by
  cases ya with
  | nil => simp at h2
  | cons a rest =>
  cases rest with
  | nil => simp at h2
  | cons b t =>
  have hxM : (((a.1 : ℚ), a.2) :: ((b.1 : ℚ), b.2)
      :: t.map (fun p : ℤ × ℚ => ((p.1 : ℚ), p.2))).Pairwise
      (fun p q => p.1 < q.1) := by
    have hmap : ((a :: b :: t).map (fun p : ℤ × ℚ => ((p.1 : ℚ), p.2))).Pairwise
        (fun p q : ℚ × ℚ => p.1 < q.1) :=
      hx.map _ (fun p q h => Int.cast_lt.mpr h)
    simpa using hmap
  have hsnd : (((((a.1 : ℚ), a.2) :: ((b.1 : ℚ), b.2)
      :: t.map (fun p : ℤ × ℚ => ((p.1 : ℚ), p.2))).getLastD (0, 0))).2
      = ((a :: b :: t).getLastD (0, 0)).2 := by
    simp only [List.getLastD_cons]
    rw [show (((b.1 : ℚ), b.2) : ℚ × ℚ) = (fun p : ℤ × ℚ => ((p.1 : ℚ), p.2)) b from rfl,
      List.getLastD_map]
  have hden := lsDen_pos _ _ _ hxM
  refine ⟨slopeR (((a.1 : ℚ), a.2) :: ((b.1 : ℚ), b.2)
    :: t.map (fun p : ℤ × ℚ => ((p.1 : ℚ), p.2))), ?_, ?_, ?_, ?_⟩
  · rw [polyfitSlope_cons_cons_allSome]
    simp only [List.map_cons]
  · intro hgt
    simp only [List.headD_cons] at hgt
    rcases hm with hmle | hmge
    · have hyM : (((a.1 : ℚ), a.2) :: ((b.1 : ℚ), b.2)
          :: t.map (fun p : ℤ × ℚ => ((p.1 : ℚ), p.2))).Pairwise
          (fun p q => p.2 ≤ q.2) := by
        have hmap : ((a :: b :: t).map (fun p : ℤ × ℚ => ((p.1 : ℚ), p.2))).Pairwise
            (fun p q : ℚ × ℚ => p.2 ≤ q.2) :=
          hmle.map _ (fun p q h => h)
        simpa using hmap
      have hgtM : (((a.1 : ℚ), a.2) : ℚ × ℚ).2 < (((((a.1 : ℚ), a.2) :: ((b.1 : ℚ), b.2)
          :: t.map (fun p : ℤ × ℚ => ((p.1 : ℚ), p.2))).getLastD (0, 0))).2 := by
        rw [hsnd]
        exact hgt
      have hnum := lsNum_pos_of_mono _ _ hxM hyM hgtM
      exact div_pos hnum hden
    · have hub := pairwise_rel_getLastD (fun s r : ℤ × ℚ => r.2 ≤ s.2)
        (fun _ => le_refl _) a (b :: t) (0, 0) hmge
      have hla := hub a (List.mem_cons_self _ _)
      linarith
  · intro hlt
    simp only [List.headD_cons] at hlt
    rcases hm with hmle | hmge
    · have hub := pairwise_rel_getLastD (fun s r : ℤ × ℚ => s.2 ≤ r.2)
        (fun _ => le_refl _) a (b :: t) (0, 0) hmle
      have hla := hub a (List.mem_cons_self _ _)
      linarith
    · have hNM : (((a.1 : ℚ), -a.2) :: ((b.1 : ℚ), -b.2)
          :: t.map (fun p : ℤ × ℚ => ((p.1 : ℚ), -p.2)))
          = (((a.1 : ℚ), a.2) :: ((b.1 : ℚ), b.2)
            :: t.map (fun p : ℤ × ℚ => ((p.1 : ℚ), p.2))).map
              (fun p : ℚ × ℚ => (p.1, -p.2)) := by
        simp only [List.map_cons, List.map_map, Function.comp_def]
      have hxN : (((a.1 : ℚ), -a.2) :: ((b.1 : ℚ), -b.2)
          :: t.map (fun p : ℤ × ℚ => ((p.1 : ℚ), -p.2))).Pairwise
          (fun p q => p.1 < q.1) := by
        rw [hNM]
        exact hxM.map _ (fun p q h => h)
      have hyN : (((a.1 : ℚ), -a.2) :: ((b.1 : ℚ), -b.2)
          :: t.map (fun p : ℤ × ℚ => ((p.1 : ℚ), -p.2))).Pairwise
          (fun p q => p.2 ≤ q.2) := by
        have hmap : ((a :: b :: t).map (fun p : ℤ × ℚ => ((p.1 : ℚ), -p.2))).Pairwise
            (fun p q : ℚ × ℚ => p.2 ≤ q.2) :=
          hmge.map _ (fun p q h => neg_le_neg h)
        simpa using hmap
      have hsndN : (((((a.1 : ℚ), -a.2) :: ((b.1 : ℚ), -b.2)
          :: t.map (fun p : ℤ × ℚ => ((p.1 : ℚ), -p.2))).getLastD (0, 0))).2
          = -((a :: b :: t).getLastD (0, 0)).2 := by
        simp only [List.getLastD_cons]
        rw [show (((b.1 : ℚ), -b.2) : ℚ × ℚ) = (fun p : ℤ × ℚ => ((p.1 : ℚ), -p.2)) b from rfl,
          List.getLastD_map]
      have hgtN : (((a.1 : ℚ), -a.2) : ℚ × ℚ).2 < (((((a.1 : ℚ), -a.2) :: ((b.1 : ℚ), -b.2)
          :: t.map (fun p : ℤ × ℚ => ((p.1 : ℚ), -p.2))).getLastD (0, 0))).2 := by
        rw [hsndN]
        exact neg_lt_neg hlt
      have hnumN := lsNum_pos_of_mono _ _ hxN hyN hgtN
      have hrel : lsNum (((a.1 : ℚ), -a.2) :: ((b.1 : ℚ), -b.2)
          :: t.map (fun p : ℤ × ℚ => ((p.1 : ℚ), -p.2)))
          = -lsNum (((a.1 : ℚ), a.2) :: ((b.1 : ℚ), b.2)
            :: t.map (fun p : ℤ × ℚ => ((p.1 : ℚ), p.2))) := by
        rw [hNM]
        exact lsNum_map_negSnd _
      rw [hrel] at hnumN
      have hnum : lsNum (((a.1 : ℚ), a.2) :: ((b.1 : ℚ), b.2)
          :: t.map (fun p : ℤ × ℚ => ((p.1 : ℚ), p.2))) < 0 := by linarith
      exact div_neg_of_neg_of_pos hnum hden
  · intro heq
    simp only [List.headD_cons] at heq
    have heqM : (((((a.1 : ℚ), a.2) :: ((b.1 : ℚ), b.2)
        :: t.map (fun p : ℤ × ℚ => ((p.1 : ℚ), p.2))).getLastD (0, 0))).2
        = (((a.1 : ℚ), a.2) : ℚ × ℚ).2 := by
      rw [hsnd]
      exact heq
    rcases hm with hmle | hmge
    · have hyM : (((a.1 : ℚ), a.2) :: ((b.1 : ℚ), b.2)
          :: t.map (fun p : ℤ × ℚ => ((p.1 : ℚ), p.2))).Pairwise
          (fun p q => p.2 ≤ q.2) := by
        have hmap : ((a :: b :: t).map (fun p : ℤ × ℚ => ((p.1 : ℚ), p.2))).Pairwise
            (fun p q : ℚ × ℚ => p.2 ≤ q.2) :=
          hmle.map _ (fun p q h => h)
        simpa using hmap
      have hnum := lsNum_zero_of_mono_le _ _ hyM heqM
      show lsNum _ / lsDen _ = 0
      rw [hnum]
      exact zero_div _
    · have hyM : (((a.1 : ℚ), a.2) :: ((b.1 : ℚ), b.2)
          :: t.map (fun p : ℤ × ℚ => ((p.1 : ℚ), p.2))).Pairwise
          (fun p q => q.2 ≤ p.2) := by
        have hmap : ((a :: b :: t).map (fun p : ℤ × ℚ => ((p.1 : ℚ), p.2))).Pairwise
            (fun p q : ℚ × ℚ => q.2 ≤ p.2) :=
          hmge.map _ (fun p q h => h)
        simpa using hmap
      have hnum := lsNum_zero_of_mono_ge _ _ hyM heqM
      show lsNum _ / lsDen _ = 0
      rw [hnum]
      exact zero_div _

/-- Witness for C9_monotone_slope_sign at the concrete non-decreasing
input (2021, 20), (2022, 21), (2023, 22). -/
theorem C9_monotone_slope_sign_witness :
    ∃ s : ℚ, polyfitSlope ([((2021 : ℤ), (20 : ℚ)), (2022, 21), (2023, 22)].map
        (fun p => (p.1, some p.2))) = some s ∧
      ((([((2021 : ℤ), (20 : ℚ)), (2022, 21), (2023, 22)]).headD (0, 0)).2 <
        (([((2021 : ℤ), (20 : ℚ)), (2022, 21), (2023, 22)]).getLastD (0, 0)).2 → 0 < s) ∧
      ((([((2021 : ℤ), (20 : ℚ)), (2022, 21), (2023, 22)]).getLastD (0, 0)).2 <
        (([((2021 : ℤ), (20 : ℚ)), (2022, 21), (2023, 22)]).headD (0, 0)).2 → s < 0) ∧
      ((([((2021 : ℤ), (20 : ℚ)), (2022, 21), (2023, 22)]).getLastD (0, 0)).2 =
        (([((2021 : ℤ), (20 : ℚ)), (2022, 21), (2023, 22)]).headD (0, 0)).2 → s = 0) :=
  C9_monotone_slope_sign [((2021 : ℤ), (20 : ℚ)), (2022, 21), (2023, 22)] (by decide)
    (by decide) (Or.inl (by norm_num [List.pairwise_cons]))

/-- Claim C10: when the fitted slope is NaN (as happens when some yearly
average is itself NaN, e.g. a year whose observations are all missing),
both comparisons at line 104 are false, so the trend is reported as
"Stable" with a NaN magnitude, and the pipeline still returns a bundle —
no error is raised. -/
theorem C10_nan_slope_stable (df : List Row) (h1 : df ≠ [])
    (h2 : hasDupPair df = false)
    (hnan : polyfitSlope (yearly_avg df) = none) :
    ∃ b : Bundle, pipeline df = Except.ok b ∧ b.direction = "Stable" ∧ b.magnitude = none := by
  have hne : df.isEmpty = false := by
    cases df with
    | nil => exact absurd rfl h1
    | cons r rs => rfl
  refine ⟨_, pipeline_ok df hne h2, ?_, ?_⟩
  · show trend_direction (polyfitSlope (yearly_avg df)) = "Stable"
    rw [hnan]
    decide
  · show trend_magnitude (polyfitSlope (yearly_avg df)) = none
    rw [hnan]
    rfl

/-- Witness for C10_nan_slope_stable at a concrete input whose two years
both have only missing observations. -/
theorem C10_nan_slope_stable_witness :
    ∃ b : Bundle, pipeline [⟨2000, 1, none⟩, ⟨2001, 1, none⟩] = Except.ok b ∧
      b.direction = "Stable" ∧ b.magnitude = none :=
  C10_nan_slope_stable [⟨2000, 1, none⟩, ⟨2001, 1, none⟩] (by decide) (by decide) (by decide)

end WeatherMonth
